import Mathlib

/-!
Verification of the pr-reviewer-service reviewer-assignment and transaction
engine against its specification.

The Go source is shallowly embedded: the relational store (tables `user`,
`pull_request`, `pr_reviewer`) becomes the structure `DB`; each repository
method (`internal/infrastructure/persistence/postgres/*.go`) becomes a pure
function over `DB` translated from its SQL; each service method
(`internal/app/service/*.go`) becomes a function `DB → Except AppError (DB × response)`
following the Go control flow statement by statement.  Time instants are
`Nat`; SQL `ORDER BY` on a text column is an insertion sort on the key.
-/

namespace PRRev

/-- `models.User` (`internal/domain/models/team.go`): columns
`id, username, team_name, is_active` of table `user`. -/
structure User where
  id : String
  name : String
  teamName : String
  isActive : Bool
deriving DecidableEq, Repr

/-- `models.PullRequest` (`internal/domain/models/pull_request.go`):
columns of table `pull_request`; `mergedAt` is NULLable (`*time.Time`). -/
structure PullRequest where
  id : String
  title : String
  authorId : String
  status : String
  createdAt : Nat
  updatedAt : Nat
  mergedAt : Option Nat
deriving DecidableEq, Repr

/-- `models.PRStatusOpen`. -/
def PRStatusOpen : String := "OPEN"

/-- `models.PRStatusMerged`. -/
def PRStatusMerged : String := "MERGED"

/-- The relational store: rows of the three tables.  `reviewers` is the
`pr_reviewer` edge table of `(pr_id, reviewer_id)` pairs. -/
structure DB where
  users : List User
  prs : List PullRequest
  reviewers : List (String × String)
deriving DecidableEq, Repr

/-- `errors.AppError` (`internal/domain/errors`): stable code plus message. -/
structure AppError where
  code : String
  message : String
deriving DecidableEq, Repr

/-- `errors.NewNotFound`. -/
def newNotFound (msg : String) : AppError := ⟨"NOT_FOUND", msg⟩

/-- `errors.NewPRExists`. -/
def newPRExists (msg : String) : AppError := ⟨"PR_EXISTS", msg⟩

/-- `errors.NewPRMerged`. -/
def newPRMerged (msg : String) : AppError := ⟨"PR_MERGED", msg⟩

/-- `errors.NewNotAssigned`. -/
def newNotAssigned (msg : String) : AppError := ⟨"NOT_ASSIGNED", msg⟩

/-- `errors.NewNoCandidate`. -/
def newNoCandidate (msg : String) : AppError := ⟨"NO_CANDIDATE", msg⟩

/-- Lexicographic comparison of code-point sequences: the total order a SQL
`ORDER BY` on a text column induces on the stored ids. -/
def charListLe : List Char → List Char → Bool
  | [], _ => true
  | _ :: _, [] => false
  | x :: xs, y :: ys =>
    if x.toNat < y.toNat then true
    else if y.toNat < x.toNat then false
    else charListLe xs ys

/-- Lexicographic order on strings, used as the SQL `ORDER BY` key order. -/
def strLe (a b : String) : Bool := charListLe a.data b.data

/-- Insert `x` into a list kept ascending by the `String` key `k`
(implements SQL `ORDER BY k`). -/
def insertByKey (k : α → String) (x : α) : List α → List α
  | [] => [x]
  | y :: ys => if strLe (k x) (k y) then x :: y :: ys else y :: insertByKey k x ys

/-- Sort a list ascending by the `String` key `k` (SQL `ORDER BY k`). -/
def sortByKey (k : α → String) : List α → List α
  | [] => []
  | x :: xs => insertByKey k x (sortByKey k xs)

/-- `time.Time.Format(time.RFC3339)` abstracted: an injective rendering of
the instant. -/
def formatRFC3339 (t : Nat) : String := toString t

/-- `UserRepository.FindByID` (postgres/user.go): `SELECT ... FROM "user"
WHERE id = $1`; `pgx.ErrNoRows` becomes `none`. -/
def userFindByID (db : DB) (userID : String) : Option User :=
  db.users.find? (fun u => u.id == userID)

/-- `UserRepository.FindActiveCandidatesForReassignment` (postgres/user.go):
`SELECT ... FROM "user" WHERE team_name = $1 AND is_active = true AND
id != ALL($2) ORDER BY id`. -/
def findActiveCandidatesForReassignment (db : DB) (teamName : String)
    (excludeUserIDs : List String) : List User :=
  sortByKey User.id (db.users.filter
    (fun u => u.teamName == teamName && u.isActive && !(excludeUserIDs.contains u.id)))

/-- `UserRepository.FindByTeamName` (postgres/user.go): `SELECT ... FROM
"user" WHERE team_name = $1 ORDER BY id`. -/
def findUsersByTeamName (db : DB) (teamName : String) : List User :=
  sortByKey User.id (db.users.filter (fun u => u.teamName == teamName))

/-- `UserRepository.DeactivateTeamUsers` (postgres/user.go): `UPDATE "user"
SET is_active = false WHERE team_name = $1 AND is_active = true`; returns the
updated store and `RowsAffected`. -/
def deactivateTeamUsers (db : DB) (teamName : String) : DB × Nat :=
  ({ db with users := db.users.map (fun u =>
      if u.teamName == teamName && u.isActive then { u with isActive := false } else u) },
   (db.users.filter (fun u => u.teamName == teamName && u.isActive)).length)

/-- `TeamRepository.GetTeamByName` (postgres/team repository): `SELECT ...
FROM "user" WHERE team_name = $1 ORDER BY username`; an empty member list is
`none` (a team with zero members does not exist). -/
def getTeamByName (db : DB) (teamName : String) : Option (List User) :=
  let members := sortByKey User.name (db.users.filter (fun u => u.teamName == teamName))
  if members.isEmpty then none else some members

/-- `PullRequestRepository.Exists` (postgres/pull_request.go):
`SELECT EXISTS(SELECT 1 FROM pull_request WHERE id = $1)`. -/
def prExists (db : DB) (prID : String) : Bool :=
  db.prs.any (fun pr => pr.id == prID)

/-- `PullRequestRepository.FindByID` (postgres/pull_request.go). -/
def prFindByID (db : DB) (prID : String) : Option PullRequest :=
  db.prs.find? (fun pr => pr.id == prID)

/-- `PullRequestRepository.Create` (postgres/pull_request.go): `INSERT INTO
pull_request ...` (no `merged_at` column in the insert, so it is NULL). -/
def prCreate (db : DB) (pr : PullRequest) : DB :=
  { db with prs := db.prs ++ [pr] }

/-- The row update performed by `PullRequestRepository.UpdateStatus`
(postgres/pull_request.go): `UPDATE pull_request SET status = $2,
merged_at = $3, updated_at = $4 WHERE id = $1`. -/
def updateStatusRow (db : DB) (prID status : String) (mergedAt : Option Nat)
    (now : Nat) : DB :=
  { db with prs := db.prs.map (fun pr =>
      if pr.id == prID then
        { pr with status := status, mergedAt := mergedAt, updatedAt := now }
      else pr) }

/-- `ReviewerRepository.AssignReviewer` (postgres/reviewer_repository.go):
`INSERT INTO pr_reviewer ... ON CONFLICT (pr_id, reviewer_id) DO NOTHING`. -/
def assignReviewer (db : DB) (prID reviewerID : String) : DB :=
  if db.reviewers.contains (prID, reviewerID) then db
  else { db with reviewers := db.reviewers ++ [(prID, reviewerID)] }

/-- `ReviewerRepository.GetReviewers` (postgres/reviewer_repository.go):
`SELECT reviewer_id FROM pr_reviewer WHERE pr_id = $1 ORDER BY reviewer_id`. -/
def getReviewers (db : DB) (prID : String) : List String :=
  sortByKey id ((db.reviewers.filter (fun e => e.1 == prID)).map (fun e => e.2))

/-- `ReviewerRepository.IsAssigned` (postgres/reviewer_repository.go):
`SELECT EXISTS(SELECT 1 FROM pr_reviewer WHERE pr_id = $1 AND reviewer_id = $2)`. -/
def isAssigned (db : DB) (prID reviewerID : String) : Bool :=
  db.reviewers.contains (prID, reviewerID)

/-- `ReviewerRepository.ReplaceReviewer` (postgres/reviewer_repository.go):
`DELETE FROM pr_reviewer WHERE pr_id = $1 AND reviewer_id = $2` then
`INSERT INTO pr_reviewer (pr_id, reviewer_id) VALUES ($1, $2)`. -/
def replaceReviewer (db : DB) (prID oldReviewerID newReviewerID : String) : DB :=
  let db1 := { db with reviewers :=
    db.reviewers.filter (fun e => !(e.1 == prID && e.2 == oldReviewerID)) }
  { db1 with reviewers := db1.reviewers ++ [(prID, newReviewerID)] }

/-- Modelled from the spec: `ReviewerRepository.RemoveReviewer` is declared in
`TeamReviewerRepository` (service/team.go) and called by `DeactivateTeam`, but
its postgres implementation is not among the provided sources.  Spec §4.4
"remove every edge whose reviewer is a member being deactivated" and §6
"delete-one-edge": deleting the `(pr_id, reviewer_id)` edge. -/
def removeReviewer (db : DB) (prID reviewerID : String) : DB :=
  { db with reviewers :=
    db.reviewers.filter (fun e => !(e.1 == prID && e.2 == reviewerID)) }

/-- `PullRequestRepository.FindOpenPRsByReviewers` (postgres/pull_request.go):
open PRs having at least one assigned reviewer in `reviewerIDs`
(`WHERE prr.reviewer_id = ANY($1) AND pr.status = 'OPEN'`).  The query's
`ORDER BY created_at DESC` only fixes an iteration order; the deactivation
effects proved below are the same for every order, so rows are kept in table
order here. -/
def findOpenPRsByReviewers (db : DB) (reviewerIDs : List String) : List PullRequest :=
  db.prs.filter (fun pr => pr.status == PRStatusOpen &&
    db.reviewers.any (fun e => e.1 == pr.id && reviewerIDs.contains e.2))

/-- `pullrequest.PR` DTO: PR info echoed in responses.  `mergedAt` is the
empty string when unset (`omitempty`). -/
structure PRDto where
  pullRequestID : String
  pullRequestName : String
  authorID : String
  status : String
  assignedReviewers : List String
  mergedAt : String := ""
deriving DecidableEq, Repr

/-- `pullrequest.CreatePrRequest`. -/
structure CreatePrRequest where
  pullRequestID : String
  pullRequestName : String
  authorID : String
deriving DecidableEq, Repr

/-- `pullrequest.CreatePrResponse`. -/
structure CreatePrResponse where
  pr : PRDto
deriving DecidableEq, Repr

/-- `pullrequest.MergePrRequest`. -/
structure MergePrRequest where
  pullRequestID : String
deriving DecidableEq, Repr

/-- `pullrequest.MergePrResponse`. -/
structure MergePrResponse where
  pr : PRDto
deriving DecidableEq, Repr

/-- `pullrequest.ReassignReviewerRequest`. -/
structure ReassignReviewerRequest where
  pullRequestID : String
  oldReviewerID : String
deriving DecidableEq, Repr

/-- `pullrequest.ReassignReviewerResponse`. -/
structure ReassignReviewerResponse where
  pr : PRDto
  replacedBy : String
deriving DecidableEq, Repr

/-- `team.DeactivateTeamResponse`. -/
structure DeactivateTeamResponse where
  deactivatedUsers : Nat
  reassignedPRs : Nat
  userIDs : List String
deriving DecidableEq, Repr

/-- `PullRequestService.CreatePR` (service/pull_request.go, lines 72-187):
duplicate-id check, author existence/activity/team checks, candidate lookup,
`min 2` prefix selection, PR insert and per-reviewer edge insert, all inside
one Unit-of-Work transaction; `now` is `time.Now().UTC()`.  A domain failure
returns before any write, so the `Except.error` branch carries no store. -/
def createPR (db : DB) (req : CreatePrRequest) (now : Nat) :
    Except AppError (DB × CreatePrResponse) :=
  if prExists db req.pullRequestID then
    .error (newPRExists "PR id already exists")
  else
    match userFindByID db req.authorID with
    | none => .error (newNotFound "resource not found")
    | some author =>
      if !author.isActive then
        .error (newNotFound "author is not active")
      else if author.teamName == "" then
        .error (newNotFound "resource not found")
      else
        let candidates := findActiveCandidatesForReassignment db author.teamName [req.authorID]
        let reviewers := min 2 candidates.length
        let reviewerIDs := (candidates.take reviewers).map User.id
        let pr : PullRequest :=
          { id := req.pullRequestID, title := req.pullRequestName,
            authorId := req.authorID, status := PRStatusOpen,
            createdAt := now, updatedAt := now, mergedAt := none }
        let db1 := prCreate db pr
        let db2 := reviewerIDs.foldl (fun d rid => assignReviewer d req.pullRequestID rid) db1
        .ok (db2, { pr :=
          { pullRequestID := pr.id, pullRequestName := pr.title,
            authorID := pr.authorId, status := pr.status,
            assignedReviewers := reviewerIDs } })

/-- The reviewer-selection algorithm of spec §4.1 as implemented by
`CreatePR` (service/pull_request.go, lines 125-140: `min quota candidates`
then a prefix loop collecting ids) over the candidate query; `CreatePR` runs
it with quota 2, `ReassignReviewer` with quota 1 (`candidates[0].Id`). -/
def selectReviewers (db : DB) (teamName : String) (excludeUserIDs : List String)
    (quota : Nat) : List String :=
  ((findActiveCandidatesForReassignment db teamName excludeUserIDs).take quota).map User.id

/-- `PullRequestService.MergePR` (service/pull_request.go, lines 190-258).
The outer `Option` models Go runtime panics: the already-merged branch
formats `pr.MergedAt` through a `*time.Time` dereference, which panics when
the pointer is nil; that panic is `none`. -/
def mergePR (db : DB) (req : MergePrRequest) (now : Nat) :
    Option (Except AppError (DB × MergePrResponse)) :=
  match prFindByID db req.pullRequestID with
  | none => some (.error (newNotFound "PR not found"))
  | some pr =>
    let reviewers := getReviewers db pr.id
    if pr.status == PRStatusMerged then
      match pr.mergedAt with
      | none => none
      | some t =>
        some (.ok (db, { pr :=
          { pullRequestID := pr.id, pullRequestName := pr.title,
            authorID := pr.authorId, status := pr.status,
            assignedReviewers := reviewers,
            mergedAt := formatRFC3339 t } }))
    else
      let db1 := updateStatusRow db pr.id PRStatusMerged (some now) now
      some (.ok (db1, { pr :=
        { pullRequestID := pr.id, pullRequestName := pr.title,
          authorID := pr.authorId, status := PRStatusMerged,
          assignedReviewers := reviewers,
          mergedAt := formatRFC3339 now } }))

/-- `PullRequestService.ReassignReviewer` (service/pull_request.go, lines
261-376): PR lookup, merged check, assignment check, old-reviewer lookup,
exclusion set `{author} ∪ current reviewers`, candidate lookup on the old
reviewer's team, first candidate, atomic edge replacement. -/
def reassignReviewer (db : DB) (req : ReassignReviewerRequest) :
    Except AppError (DB × ReassignReviewerResponse) :=
  match prFindByID db req.pullRequestID with
  | none => .error (newNotFound "PR not found")
  | some pr =>
    if pr.status == PRStatusMerged then
      .error (newPRMerged "cannot reassign on merged PR")
    else if !isAssigned db req.pullRequestID req.oldReviewerID then
      .error (newNotAssigned "reviewer is not assigned to this PR")
    else
      match userFindByID db req.oldReviewerID with
      | none => .error (newNotFound "old reviewer not found")
      | some oldReviewer =>
        let currentReviewers := getReviewers db req.pullRequestID
        let excludeUserIDs := pr.authorId :: currentReviewers
        let candidates :=
          findActiveCandidatesForReassignment db oldReviewer.teamName excludeUserIDs
        match candidates with
        | [] => .error (newNoCandidate "no active replacement candidate in team")
        | newReviewer :: _ =>
          let db1 := replaceReviewer db req.pullRequestID req.oldReviewerID newReviewer.id
          let updatedReviewers := getReviewers db1 req.pullRequestID
          let dto : PRDto :=
            { pullRequestID := pr.id, pullRequestName := pr.title,
              authorID := pr.authorId, status := pr.status,
              assignedReviewers := updatedReviewers }
          .ok (db1, { pr := dto, replacedBy := newReviewer.id })

/-- The inner loop of `TeamService.DeactivateTeam` (service/team.go, lines
197-207): for one PR, walk its current reviewer list and remove (counting)
every reviewer belonging to the team being deactivated. -/
def removeTeamEdgesForPR (reviewerIDs : List String) (prID : String)
    (acc : DB × Nat) (revs : List String) : DB × Nat :=
  revs.foldl (fun acc2 rid =>
    if reviewerIDs.contains rid then (removeReviewer acc2.1 prID rid, acc2.2 + 1)
    else acc2) acc

/-- The outer loop of `TeamService.DeactivateTeam` (service/team.go, lines
191-208): for each affected open PR, fetch its reviewers from the current
state and strip the team's members from them. -/
def removeTeamEdges (reviewerIDs : List String) (openPRs : List PullRequest)
    (start : DB × Nat) : DB × Nat :=
  openPRs.foldl (fun acc pr =>
    removeTeamEdgesForPR reviewerIDs pr.id acc (getReviewers acc.1 pr.id)) start

/-- `TeamService.DeactivateTeam` (service/team.go, lines 156-235): team
lookup, member listing, then in one transaction: find affected open PRs,
remove each edge whose reviewer is a team member (counting removals), then
deactivate the members (counting flips). -/
def deactivateTeam (db : DB) (teamName : String) :
    Except AppError (DB × DeactivateTeamResponse) :=
  match getTeamByName db teamName with
  | none => .error (newNotFound "team not found")
  | some _ =>
    let users := findUsersByTeamName db teamName
    let reviewerIDs := users.map User.id
    let openPRs := findOpenPRsByReviewers db reviewerIDs
    let folded := removeTeamEdges reviewerIDs openPRs (db, 0)
    let deact := deactivateTeamUsers folded.1 teamName
    .ok (deact.1,
      { deactivatedUsers := deact.2, reassignedPRs := folded.2,
        userIDs := reviewerIDs })

/-- The stored-state invariant of §3: a PR row has a non-null `merged_at`
exactly when its status is MERGED. -/
def mergedConsistent (db : DB) : Prop :=
  ∀ pr ∈ db.prs, pr.status = PRStatusMerged ↔ pr.mergedAt.isSome = true

instance (db : DB) : Decidable (mergedConsistent db) := by
  unfold mergedConsistent; infer_instance

/-- A single postgres session as seen by the repositories: the committed
store (the pool's autocommit view) plus the buffer of the currently open
transaction, if one is open.  `pool.Exec` acts on `committed`; statements
routed through `getTx` act on the buffer when a transaction is open. -/
structure PgSession where
  committed : DB
  txBuffer : Option DB
deriving DecidableEq, Repr

/-- `pool.BeginTx` inside `UnitOfWork.WithinTransaction` (unit_of_work.go,
line 23): opens a transaction whose initial snapshot is the committed
store. -/
def beginTx (s : PgSession) : PgSession :=
  { s with txBuffer := some s.committed }

/-- `tx.Rollback` (unit_of_work.go, deferred func): discards the open
transaction's buffer; the committed store is untouched. -/
def rollbackTx (s : PgSession) : PgSession :=
  { s with txBuffer := none }

/-- `tx.Commit` (unit_of_work.go, line 46): publishes the open transaction's
buffer as the committed store. -/
def commitTx (s : PgSession) : PgSession :=
  match s.txBuffer with
  | some buf => { committed := buf, txBuffer := none }
  | none => s

/-- A write routed through `getTx(ctx, pool)`: it lands in the open
transaction's buffer when one is open, else on the committed store.  This is
how `Create`, `AssignReviewer`, `ReplaceReviewer` and the other
transaction-aware repository methods execute. -/
def execViaGetTx (s : PgSession) (w : DB → DB) : PgSession :=
  match s.txBuffer with
  | some buf => { s with txBuffer := some (w buf) }
  | none => { s with committed := w s.committed }

/-- `PullRequestRepository.UpdateStatus` as written in the source
(postgres/pull_request.go, line 76): it calls `r.pool.Exec` directly instead
of `getTx(ctx, r.pool)`, so the row update always lands on the committed
store, even while a transaction is open. -/
def updateStatusExec (s : PgSession) (prID status : String)
    (mergedAt : Option Nat) (now : Nat) : PgSession :=
  { s with committed := updateStatusRow s.committed prID status mergedAt now }

/-- `context.Context` as threaded by the service layer: the only value the
repositories consult is the transaction stored under `txKey`, modelled by
the transaction's identifier. -/
structure GoContext where
  txId : Option Nat
deriving DecidableEq, Repr

/-- The executor selected by a repository call: the transaction found in the
context, or the plain pool connection. -/
inductive Executor where
  | tx (id : Nat)
  | pool
deriving DecidableEq, Repr

/-- `getTx` (unit_of_work.go, lines 64-69): return the transaction stored in
the context under `txKey` when present, else the pool. -/
def getTxExecutor (ctx : GoContext) : Executor :=
  match ctx.txId with
  | some t => Executor.tx t
  | none => Executor.pool

/-- The context manipulation performed by `UnitOfWork.WithinTransaction`
(unit_of_work.go): line 23 runs `pool.BeginTx` unconditionally — it never
consults `ctx.Value(txKey{})` — and line 39 stores the fresh transaction in
the context handed to `fn`.  `fresh` is the identifier the pool assigns to
the newly begun transaction (distinct from every already-open one); the
returned pair is the context `fn` receives and the next fresh identifier. -/
def withinTransactionCtx (_ctx : GoContext) (fresh : Nat) : GoContext × Nat :=
  ({ txId := some fresh }, fresh + 1)

/-- The spec's words for the nested-call behaviour (§4.3): a nested
`WithinTransaction` reuses the transaction already stored in the call
context, so `fn` runs under the outer transaction's handle. -/
def specNestedReuse : Prop :=
  ∀ outer fresh, ((withinTransactionCtx { txId := some outer } fresh).1).txId = some outer

/-- How the function wrapped by `WithinTransaction` can end: normal return
with nil error, return with a non-nil error, or a panic. -/
inductive TxEnd where
  | ok
  | err (e : String)
  | panicked (p : String)
deriving DecidableEq, Repr

/-- The observable outcome of one `WithinTransaction` call: the committed
store afterwards, the returned error if any, and the re-raised panic if
any. -/
structure TxRunResult where
  db : DB
  error : Option String
  panic : Option String
deriving DecidableEq, Repr

/-- `UnitOfWork.WithinTransaction` (unit_of_work.go, lines 19-51) over a
store `db`.  `fn` receives the transaction snapshot and yields the writes it
executed through the transaction plus how it ended, as a transformed buffer:
on `ok` the commit at line 46 publishes the buffer; on a non-nil error the
deferred rollback (line 34) discards it; on a panic the deferred func rolls
back and re-raises (lines 31-33). -/
def withinTransaction (db : DB) (fn : DB → DB × TxEnd) : TxRunResult :=
  let run := fn db
  match run.2 with
  | .ok => { db := run.1, error := none, panic := none }
  | .err e => { db := db, error := some e, panic := none }
  | .panicked p => { db := db, error := none, panic := some p }

/-- Demo fixture: the "backend" team of spec §8's scenario, extended with a
fourth active member and an unrelated "frontend" user. -/
def demoUsers : List User :=
  [ { id := "u1", name := "alice", teamName := "backend", isActive := true },
    { id := "u2", name := "bob", teamName := "backend", isActive := true },
    { id := "u3", name := "carol", teamName := "backend", isActive := true },
    { id := "u4", name := "dave", teamName := "backend", isActive := true },
    { id := "u5", name := "erin", teamName := "frontend", isActive := true } ]

/-- Demo fixture: an open PR authored by u1. -/
def demoOpenPR : PullRequest :=
  { id := "pr-1", title := "Add X", authorId := "u1", status := PRStatusOpen,
    createdAt := 0, updatedAt := 0, mergedAt := none }

/-- Demo fixture: an already merged PR. -/
def demoMergedPR : PullRequest :=
  { id := "pr-9", title := "Old work", authorId := "u1", status := PRStatusMerged,
    createdAt := 0, updatedAt := 10, mergedAt := some 10 }

/-- Demo fixture: store with both PRs; pr-1 is reviewed by u2 and u3, pr-9 by
u2. -/
def demoDB : DB :=
  { users := demoUsers, prs := [demoOpenPR, demoMergedPR],
    reviewers := [("pr-1", "u2"), ("pr-1", "u3"), ("pr-9", "u2")] }

/-- Demo fixture: same store without u4, so a reassignment away from pr-1 has
no remaining candidate. -/
def demoDBNoCandidate : DB :=
  { demoDB with users := demoDB.users.filter (fun u => u.id != "u4") }

/-- Demo fixture: store where pr-1 carries a reviewer edge for a user id with
no `user` row. -/
def demoDBGhost : DB :=
  { demoDB with reviewers := ("pr-1", "ghost") :: demoDB.reviewers }

/-- Demo fixture: a store whose only user is the author, so reviewer
selection finds an empty pool. -/
def demoDBSolo : DB :=
  { users := [{ id := "u1", name := "alice", teamName := "backend", isActive := true }],
    prs := [], reviewers := [] }

/-- Demo fixture: the request creating pr-2 by author u1. -/
def demoCreateReq : CreatePrRequest :=
  { pullRequestID := "pr-2", pullRequestName := "New", authorID := "u1" }

/-- Demo fixture: the store after `createPR demoDB demoCreateReq 7`. -/
def demoCreatedDB : DB :=
  { users := demoUsers,
    prs := [demoOpenPR, demoMergedPR,
      { id := "pr-2", title := "New", authorId := "u1", status := PRStatusOpen,
        createdAt := 7, updatedAt := 7, mergedAt := none }],
    reviewers := [("pr-1", "u2"), ("pr-1", "u3"), ("pr-9", "u2"),
      ("pr-2", "u2"), ("pr-2", "u3")] }

/-- Demo fixture: the response of `createPR demoDB demoCreateReq 7`. -/
def demoCreateResp : CreatePrResponse :=
  { pr := { pullRequestID := "pr-2", pullRequestName := "New", authorID := "u1",
            status := PRStatusOpen, assignedReviewers := ["u2", "u3"] } }

/-- Demo fixture: the reassignment request moving pr-1 away from u2. -/
def demoReassignReq : ReassignReviewerRequest :=
  { pullRequestID := "pr-1", oldReviewerID := "u2" }

/-- Demo fixture: the store after `reassignReviewer demoDB demoReassignReq`. -/
def demoReassignedDB : DB :=
  { users := demoUsers, prs := [demoOpenPR, demoMergedPR],
    reviewers := [("pr-1", "u3"), ("pr-9", "u2"), ("pr-1", "u4")] }

/-- Demo fixture: the response of `reassignReviewer demoDB demoReassignReq`. -/
def demoReassignResp : ReassignReviewerResponse :=
  { pr := { pullRequestID := "pr-1", pullRequestName := "Add X", authorID := "u1",
            status := PRStatusOpen, assignedReviewers := ["u3", "u4"] },
    replacedBy := "u4" }

/-- Demo fixture: the store after `deactivateTeam demoDB "backend"`: all
backend users inactive, pr-1's reviewer edges removed, the merged pr-9's
edge untouched. -/
def demoDeactivatedDB : DB :=
  { users :=
      [ { id := "u1", name := "alice", teamName := "backend", isActive := false },
        { id := "u2", name := "bob", teamName := "backend", isActive := false },
        { id := "u3", name := "carol", teamName := "backend", isActive := false },
        { id := "u4", name := "dave", teamName := "backend", isActive := false },
        { id := "u5", name := "erin", teamName := "frontend", isActive := true } ],
    prs := [demoOpenPR, demoMergedPR],
    reviewers := [("pr-9", "u2")] }

/-- Demo fixture: the response of `deactivateTeam demoDB "backend"`. -/
def demoDeactResp : DeactivateTeamResponse :=
  { deactivatedUsers := 4, reassignedPRs := 2, userIDs := ["u1", "u2", "u3", "u4"] }

/-- Demo fixture: a transaction body that writes (clears the edge table in
its transaction buffer) and then returns a non-nil error. -/
def demoTxFnErr : DB → DB × TxEnd :=
  fun d => ({ d with reviewers := [] }, TxEnd.err "boom")

/-- Demo fixture: a transaction body that writes and then panics. -/
def demoTxFnPanic : DB → DB × TxEnd :=
  fun d => ({ d with reviewers := [] }, TxEnd.panicked "stop")

/-- Demo fixture: a postgres session over `demoDB` with no open
transaction. -/
def demoSession : PgSession :=
  { committed := demoDB, txBuffer := none }

theorem charListLe_total : ∀ a b, charListLe a b = true ∨ charListLe b a = true := by
  intro a
  induction a with
  | nil => intro b; left; rfl
  | cons x xs ih =>
    intro b
    cases b with
    | nil => right; rfl
    | cons y ys =>
      by_cases hxy : x.toNat < y.toNat
      · left; simp [charListLe, hxy]
      · by_cases hyx : y.toNat < x.toNat
        · right; simp [charListLe, hyx]
        · rcases ih ys with h | h
          · left; simp [charListLe, hxy, hyx, h]
          · right; simp [charListLe, hxy, hyx, h]

theorem charListLe_trans :
    ∀ a b c, charListLe a b = true → charListLe b c = true → charListLe a c = true := by
  intro a
  induction a with
  | nil => intro b c _ _; rfl
  | cons x xs ih =>
    intro b c hab hbc
    cases b with
    | nil => simp [charListLe] at hab
    | cons y ys =>
      cases c with
      | nil => simp [charListLe] at hbc
      | cons z zs =>
        simp only [charListLe] at hab hbc ⊢
        split at hab
        · rename_i hxy
          split at hbc
          · rename_i hyz
            have : x.toNat < z.toNat := Nat.lt_trans hxy hyz
            simp [this]
          · split at hbc
            · exact absurd hbc (by simp)
            · rename_i hyz hzy
              have hyzeq : y.toNat = z.toNat := by omega
              have : x.toNat < z.toNat := hyzeq ▸ hxy
              simp [this]
        · split at hab
          · exact absurd hab (by simp)
          · rename_i hxy hyx
            have hxyeq : x.toNat = y.toNat := by omega
            split at hbc
            · rename_i hyz
              have : x.toNat < z.toNat := hxyeq ▸ hyz
              simp [this]
            · split at hbc
              · exact absurd hbc (by simp)
              · rename_i hyz hzy
                have hxz : ¬x.toNat < z.toNat := by omega
                have hzx : ¬z.toNat < x.toNat := by omega
                simp [hxz, hzx, ih ys zs hab hbc]

theorem strLe_total (a b : String) : strLe a b = true ∨ strLe b a = true :=
  charListLe_total a.data b.data

theorem strLe_trans {a b c : String} (hab : strLe a b = true) (hbc : strLe b c = true) :
    strLe a c = true :=
  charListLe_trans a.data b.data c.data hab hbc

theorem insertByKey_perm (k : α → String) (x : α) (l : List α) :
    List.Perm (insertByKey k x l) (x :: l) := by
  induction l with
  | nil => exact List.Perm.refl _
  | cons y ys ih =>
    simp only [insertByKey]
    split
    · exact List.Perm.refl _
    · exact List.Perm.trans (List.Perm.cons y ih) (List.Perm.swap x y ys)

theorem sortByKey_perm (k : α → String) (l : List α) :
    List.Perm (sortByKey k l) l := by
  induction l with
  | nil => exact List.Perm.refl _
  | cons x xs ih =>
    exact List.Perm.trans (insertByKey_perm k x (sortByKey k xs)) (List.Perm.cons x ih)

theorem mem_sortByKey {k : α → String} {l : List α} {a : α} :
    a ∈ sortByKey k l ↔ a ∈ l :=
  (sortByKey_perm k l).mem_iff

theorem length_sortByKey (k : α → String) (l : List α) :
    (sortByKey k l).length = l.length :=
  (sortByKey_perm k l).length_eq

theorem nodup_sortByKey {k : α → String} {l : List α} (h : l.Nodup) :
    (sortByKey k l).Nodup :=
  (sortByKey_perm k l).nodup_iff.mpr h

theorem pairwise_insertByKey (k : α → String) (x : α) {l : List α}
    (h : l.Pairwise (fun a b => strLe (k a) (k b) = true)) :
    (insertByKey k x l).Pairwise (fun a b => strLe (k a) (k b) = true) := by
  induction l with
  | nil => simp [insertByKey]
  | cons y ys ih =>
    simp only [insertByKey]
    rw [List.pairwise_cons] at h
    split
    · rename_i hxy
      rw [List.pairwise_cons]
      refine ⟨?_, List.pairwise_cons.mpr h⟩
      intro z hz
      rcases List.mem_cons.mp hz with rfl | hz
      · exact hxy
      · exact strLe_trans hxy (h.1 z hz)
    · rename_i hxy
      rw [List.pairwise_cons]
      refine ⟨?_, ih h.2⟩
      intro z hz
      rcases List.mem_cons.mp ((insertByKey_perm k x ys).mem_iff.mp hz) with rfl | h2
      · rcases strLe_total (k z) (k y) with ht | ht
        · exact absurd ht hxy
        · exact ht
      · exact h.1 z h2

theorem pairwise_sortByKey (k : α → String) (l : List α) :
    (sortByKey k l).Pairwise (fun a b => strLe (k a) (k b) = true) := by
  induction l with
  | nil => simp [sortByKey]
  | cons x xs ih => exact pairwise_insertByKey k x ih

theorem mem_getReviewers {db : DB} {prID rid : String} :
    rid ∈ getReviewers db prID ↔ (prID, rid) ∈ db.reviewers := by
  simp only [getReviewers, mem_sortByKey, List.mem_map, List.mem_filter, beq_iff_eq]
  constructor
  · rintro ⟨⟨a, b⟩, ⟨hm, h1⟩, h2⟩
    simp only at h1 h2
    subst h1; subst h2; exact hm
  · intro hm
    exact ⟨(prID, rid), ⟨hm, rfl⟩, rfl⟩

theorem nodup_getReviewers {db : DB} (prID : String) (h : db.reviewers.Nodup) :
    (getReviewers db prID).Nodup := by
  apply nodup_sortByKey
  apply List.Nodup.map_on
  · intro x hx y hy hxy
    have hx1 : x.1 = prID := by
      simpa using (List.mem_filter.mp hx).2
    have hy1 : y.1 = prID := by
      simpa using (List.mem_filter.mp hy).2
    cases x; cases y
    simp only at hx1 hy1 hxy
    simp [hx1, hy1, hxy]
  · exact h.filter _

theorem contains_eq_false_iff {l : List String} {a : String} :
    l.contains a = false ↔ a ∉ l := by
  rw [Bool.eq_false_iff]
  simp [List.contains, List.elem_iff]

theorem mem_candidates {db : DB} {team : String} {ex : List String} {u : User} :
    u ∈ findActiveCandidatesForReassignment db team ex ↔
      u ∈ db.users ∧ u.teamName = team ∧ u.isActive = true ∧ u.id ∉ ex := by
  simp only [findActiveCandidatesForReassignment, mem_sortByKey, List.mem_filter,
    Bool.and_eq_true, beq_iff_eq, Bool.not_eq_true', contains_eq_false_iff, and_assoc]

theorem mem_findUsersByTeamName {db : DB} {team : String} {u : User} :
    u ∈ findUsersByTeamName db team ↔ u ∈ db.users ∧ u.teamName = team := by
  simp only [findUsersByTeamName, mem_sortByKey, List.mem_filter, beq_iff_eq]

theorem getTeamByName_eq_none_iff {db : DB} {team : String} :
    getTeamByName db team = none ↔ ∀ u ∈ db.users, u.teamName ≠ team := by
  have hiff : (sortByKey User.name (db.users.filter (fun u => u.teamName == team))).isEmpty = true
      ↔ ∀ u ∈ db.users, u.teamName ≠ team := by
    rw [List.isEmpty_iff]
    constructor
    · intro hnil u hu hteam
      have hm : u ∈ sortByKey User.name (db.users.filter (fun v => v.teamName == team)) :=
        mem_sortByKey.mpr (List.mem_filter.mpr ⟨hu, by simp [hteam]⟩)
      rw [hnil] at hm
      simp at hm
    · intro hall
      by_contra hne
      rcases List.exists_mem_of_ne_nil _ hne with ⟨u, hu⟩
      have hmem := List.mem_filter.mp (mem_sortByKey.mp hu)
      exact hall u hmem.1 (by simpa using hmem.2)
  simp only [getTeamByName]
  by_cases hemp : (sortByKey User.name (db.users.filter (fun u => u.teamName == team))).isEmpty
  · simp only [hemp, if_true, true_iff]
    exact hiff.mp hemp
  · simp only [hemp]
    constructor
    · intro h
      simp at h
    · intro hall
      exact absurd (hiff.mpr hall) hemp

theorem prFindByID_eq_some {db : DB} {prID : String} {pr : PullRequest}
    (h : prFindByID db prID = some pr) : pr ∈ db.prs ∧ pr.id = prID := by
  refine ⟨List.mem_of_find?_eq_some h, ?_⟩
  have := List.find?_some h
  simpa using this

theorem isAssigned_iff {db : DB} {prID rid : String} :
    isAssigned db prID rid = true ↔ (prID, rid) ∈ db.reviewers := by
  simp [isAssigned, List.contains, List.elem_iff]

theorem assignReviewer_users (db : DB) (p r : String) :
    (assignReviewer db p r).users = db.users := by
  unfold assignReviewer; split <;> rfl

theorem assignReviewer_prs (db : DB) (p r : String) :
    (assignReviewer db p r).prs = db.prs := by
  unfold assignReviewer; split <;> rfl

theorem foldl_assignReviewer_users (db : DB) (p : String) (rids : List String) :
    (rids.foldl (fun d rid => assignReviewer d p rid) db).users = db.users := by
  induction rids generalizing db with
  | nil => rfl
  | cons r rs ih => rw [List.foldl_cons, ih, assignReviewer_users]

theorem foldl_assignReviewer_prs (db : DB) (p : String) (rids : List String) :
    (rids.foldl (fun d rid => assignReviewer d p rid) db).prs = db.prs := by
  induction rids generalizing db with
  | nil => rfl
  | cons r rs ih => rw [List.foldl_cons, ih, assignReviewer_prs]

theorem replaceReviewer_users (db : DB) (p o n : String) :
    (replaceReviewer db p o n).users = db.users := rfl

theorem replaceReviewer_prs (db : DB) (p o n : String) :
    (replaceReviewer db p o n).prs = db.prs := rfl

theorem removeReviewer_users (db : DB) (p r : String) :
    (removeReviewer db p r).users = db.users := rfl

theorem removeReviewer_prs (db : DB) (p r : String) :
    (removeReviewer db p r).prs = db.prs := rfl

theorem mem_removeReviewer {db : DB} {p r : String} {e : String × String}
    (h : e ∈ (removeReviewer db p r).reviewers) :
    e ∈ db.reviewers ∧ ¬(e.1 = p ∧ e.2 = r) := by
  have := List.mem_filter.mp h
  refine ⟨this.1, ?_⟩
  rintro ⟨h1, h2⟩
  simp [h1, h2] at this

theorem removeTeamEdgesForPR_users (rids : List String) (prID : String)
    (acc : DB × Nat) (revs : List String) :
    (removeTeamEdgesForPR rids prID acc revs).1.users = acc.1.users := by
  induction revs generalizing acc with
  | nil => rfl
  | cons r rs ih =>
    simp only [removeTeamEdgesForPR, List.foldl_cons] at ih ⊢
    split <;> rw [ih] <;> rfl

theorem removeTeamEdgesForPR_prs (rids : List String) (prID : String)
    (acc : DB × Nat) (revs : List String) :
    (removeTeamEdgesForPR rids prID acc revs).1.prs = acc.1.prs := by
  induction revs generalizing acc with
  | nil => rfl
  | cons r rs ih =>
    simp only [removeTeamEdgesForPR, List.foldl_cons] at ih ⊢
    split <;> rw [ih] <;> rfl

theorem removeTeamEdges_users (rids : List String) (prs : List PullRequest)
    (start : DB × Nat) :
    (removeTeamEdges rids prs start).1.users = start.1.users := by
  induction prs generalizing start with
  | nil => rfl
  | cons pr rest ih =>
    simp only [removeTeamEdges, List.foldl_cons] at ih ⊢
    rw [ih, removeTeamEdgesForPR_users]

theorem removeTeamEdges_prs (rids : List String) (prs : List PullRequest)
    (start : DB × Nat) :
    (removeTeamEdges rids prs start).1.prs = start.1.prs := by
  induction prs generalizing start with
  | nil => rfl
  | cons pr rest ih =>
    simp only [removeTeamEdges, List.foldl_cons] at ih ⊢
    rw [ih, removeTeamEdgesForPR_prs]

theorem mem_removeTeamEdgesForPR {rids : List String} {prID : String}
    {e : String × String} :
    ∀ (revs : List String) (acc : DB × Nat),
      e ∈ (removeTeamEdgesForPR rids prID acc revs).1.reviewers →
      e ∈ acc.1.reviewers ∧ ¬(e.1 = prID ∧ e.2 ∈ revs ∧ e.2 ∈ rids) := by
  intro revs
  induction revs with
  | nil =>
    intro acc h
    exact ⟨h, by simp⟩
  | cons r rs ih =>
    intro acc h
    simp only [removeTeamEdgesForPR, List.foldl_cons] at h
    by_cases hr : rids.contains r
    · rw [if_pos hr] at h
      have h2 := ih (removeReviewer acc.1 prID r, acc.2 + 1) h
      have h3 := mem_removeReviewer h2.1
      refine ⟨h3.1, ?_⟩
      rintro ⟨hp, hmem, hrid⟩
      rcases List.mem_cons.mp hmem with rfl | hrest
      · exact h3.2 ⟨hp, rfl⟩
      · exact h2.2 ⟨hp, hrest, hrid⟩
    · rw [if_neg hr] at h
      have h2 := ih acc h
      refine ⟨h2.1, ?_⟩
      rintro ⟨hp, hmem, hrid⟩
      rcases List.mem_cons.mp hmem with rfl | hrest
      · have : rids.contains e.2 = true := by
          simp [List.contains, List.elem_iff, hrid]
        exact hr this
      · exact h2.2 ⟨hp, hrest, hrid⟩

theorem mem_removeTeamEdges (rids : List String) {e : String × String} :
    ∀ (prs : List PullRequest) (start : DB × Nat),
      e ∈ (removeTeamEdges rids prs start).1.reviewers →
      e ∈ start.1.reviewers ∧ ∀ pr ∈ prs, ¬(e.1 = pr.id ∧ e.2 ∈ rids) := by
  intro prs
  induction prs with
  | nil =>
    intro start h
    exact ⟨h, by simp⟩
  | cons pr rest ih =>
    intro start h
    simp only [removeTeamEdges, List.foldl_cons] at h
    have h2 := ih (removeTeamEdgesForPR rids pr.id start (getReviewers start.1 pr.id)) h
    have h3 := mem_removeTeamEdgesForPR (getReviewers start.1 pr.id) start h2.1
    refine ⟨h3.1, ?_⟩
    intro pr2 hpr2
    rcases List.mem_cons.mp hpr2 with rfl | hrest
    · rintro ⟨hp, hrid⟩
      apply h3.2
      refine ⟨hp, ?_, hrid⟩
      have : (pr2.id, e.2) ∈ start.1.reviewers := by
        have he : e = (pr2.id, e.2) := by
          cases e; simp only at hp ⊢; rw [hp]
        rw [← he]; exact h3.1
      exact mem_getReviewers.mpr this
    · exact h2.2 pr2 hrest

theorem pair_pred_true {p q : String} (e : String × String) (hne : e ≠ (p, q)) :
    (!(e.1 == p && e.2 == q)) = true := by
  cases e with
  | mk x y =>
    by_cases h1 : x = p
    · by_cases h2 : y = q
      · exact absurd (by rw [h1, h2]) hne
      · simp [h1, h2]
    · simp [h1]

theorem length_filter_remove (p q : String) :
    ∀ {l : List (String × String)}, l.Nodup → (p, q) ∈ l →
      (l.filter (fun e => !(e.1 == p && e.2 == q))).length + 1 = l.length := by
  intro l
  induction l with
  | nil => intro _ hm; cases hm
  | cons a tl ih =>
    intro hn hm
    rw [List.nodup_cons] at hn
    rcases List.mem_cons.mp hm with heq | hmem
    · cases heq
      have hfilter : tl.filter (fun e => !(e.1 == p && e.2 == q)) = tl := by
        apply List.filter_eq_self.mpr
        intro e he
        exact pair_pred_true e (fun hcontra => hn.1 (hcontra ▸ he))
      rw [List.filter_cons]
      have hpred : (!(((p, q) : String × String).1 == p && ((p, q) : String × String).2 == q)) = false := by
        simp
      rw [hpred]
      simp only [Bool.false_eq_true, if_false]
      rw [hfilter, List.length_cons]
    · have hane : a ≠ (p, q) := fun h => hn.1 (h ▸ hmem)
      rw [List.filter_cons, pair_pred_true a hane]
      simp only [if_true, List.length_cons]
      rw [Nat.add_right_comm, ih hn.2 hmem]

theorem removeTeamEdgesForPR_cons (rids : List String) (prID r : String)
    (rs : List String) (acc : DB × Nat) :
    removeTeamEdgesForPR rids prID acc (r :: rs) =
      removeTeamEdgesForPR rids prID
        (if rids.contains r then (removeReviewer acc.1 prID r, acc.2 + 1) else acc) rs := rfl

theorem removeTeamEdges_cons (rids : List String) (pr : PullRequest)
    (rest : List PullRequest) (start : DB × Nat) :
    removeTeamEdges rids (pr :: rest) start =
      removeTeamEdges rids rest
        (removeTeamEdgesForPR rids pr.id start (getReviewers start.1 pr.id)) := rfl

theorem removeTeamEdgesForPR_count (rids : List String) (prID : String) :
    ∀ (revs : List String) (acc : DB × Nat),
      acc.1.reviewers.Nodup → revs.Nodup →
      (∀ r ∈ revs, (prID, r) ∈ acc.1.reviewers) →
      (removeTeamEdgesForPR rids prID acc revs).1.reviewers.Nodup ∧
      (removeTeamEdgesForPR rids prID acc revs).1.reviewers.length +
        (removeTeamEdgesForPR rids prID acc revs).2 =
        acc.1.reviewers.length + acc.2 := by
  intro revs
  induction revs with
  | nil =>
    intro acc hnd _ _
    exact ⟨hnd, rfl⟩
  | cons r rs ih =>
    intro acc hnd hrevnd hmem
    rw [List.nodup_cons] at hrevnd
    rw [removeTeamEdgesForPR_cons]
    by_cases hr : rids.contains r
    · rw [if_pos hr]
      have hmemr : (prID, r) ∈ acc.1.reviewers := hmem r (List.mem_cons_self r rs)
      have hlen := length_filter_remove prID r hnd hmemr
      have hnd2 : (removeReviewer acc.1 prID r).reviewers.Nodup := List.Nodup.filter _ hnd
      have hmem2 : ∀ x ∈ rs, (prID, x) ∈ (removeReviewer acc.1 prID r).reviewers := by
        intro x hx
        apply List.mem_filter.mpr
        refine ⟨hmem x (List.mem_cons_of_mem r hx), ?_⟩
        have : x ≠ r := fun hcontra => hrevnd.1 (hcontra ▸ hx)
        simp [this]
      have hrec := ih (removeReviewer acc.1 prID r, acc.2 + 1) hnd2 hrevnd.2 hmem2
      refine ⟨hrec.1, ?_⟩
      rw [hrec.2]
      simp only [removeReviewer] at *
      omega
    · rw [if_neg hr]
      exact ih acc hnd hrevnd.2 (fun x hx => hmem x (List.mem_cons_of_mem r hx))

theorem removeTeamEdges_count (rids : List String) :
    ∀ (prs : List PullRequest) (start : DB × Nat),
      start.1.reviewers.Nodup →
      (removeTeamEdges rids prs start).1.reviewers.Nodup ∧
      (removeTeamEdges rids prs start).1.reviewers.length +
        (removeTeamEdges rids prs start).2 =
        start.1.reviewers.length + start.2 := by
  intro prs
  induction prs with
  | nil =>
    intro start hnd
    exact ⟨hnd, rfl⟩
  | cons pr rest ih =>
    intro start hnd
    rw [removeTeamEdges_cons]
    have hstep := removeTeamEdgesForPR_count rids pr.id
      (getReviewers start.1 pr.id) start hnd (nodup_getReviewers pr.id hnd)
      (fun r hr => mem_getReviewers.mp hr)
    have hrec := ih (removeTeamEdgesForPR rids pr.id start (getReviewers start.1 pr.id)) hstep.1
    refine ⟨hrec.1, ?_⟩
    rw [hrec.2, hstep.2]

/-- C4: reviewer selection is deterministic and a pure prefix selection: for
any fixed candidate pool (the active users of the team held in the store),
exclusion set and quota, repeated selection returns the same ordered result
(selection is a pure function of its inputs), the candidate list is ordered
by user id ascending, and the result length is
`min quota |pool filtered by the exclusion set|`. -/
theorem c4_selection_deterministic_prefix (db : DB) (team : String)
    (ex : List String) (quota : Nat) :
    selectReviewers db team ex quota = selectReviewers db team ex quota ∧
    (findActiveCandidatesForReassignment db team ex).Pairwise
      (fun a b => strLe a.id b.id = true) ∧
    (selectReviewers db team ex quota).length =
      min quota ((db.users.filter
        (fun u => u.teamName == team && u.isActive && !(ex.contains u.id))).length) := by
  refine ⟨rfl, pairwise_sortByKey _ _, ?_⟩
  simp only [selectReviewers, List.length_map, List.length_take,
    findActiveCandidatesForReassignment, length_sortByKey]

/-- C5: evidence of the code bug — `PullRequestRepository.UpdateStatus`
executes through `r.pool.Exec`, not through `getTx(ctx, r.pool)`, so the
merge write of `MergePR` lands on the committed store outside the open
transaction: after the transaction is rolled back, pr-1 is still MERGED in
the committed store (first conjunct), whereas the same row update routed
through the transaction executor, as the spec describes, is discarded by the
rollback (second conjunct). -/
theorem c5_update_status_escapes_transaction :
    prFindByID (rollbackTx (updateStatusExec (beginTx demoSession) "pr-1"
        PRStatusMerged (some 5) 5)).committed "pr-1" =
      some { id := "pr-1", title := "Add X", authorId := "u1",
             status := PRStatusMerged, createdAt := 0, updatedAt := 5,
             mergedAt := some 5 } ∧
    (rollbackTx (execViaGetTx (beginTx demoSession)
        (fun d => updateStatusRow d "pr-1" PRStatusMerged (some 5) 5))).committed = demoDB :=
  ⟨rfl, rfl⟩

/-- C8 counterexample: the spec's nested-reuse property fails on the code —
`WithinTransaction` never consults the transaction key in the incoming
context; called with a context already carrying transaction 0 (and 1 as the
next fresh transaction), it runs its body under transaction 1, not 0. -/
theorem c8_counterexample_nested_opens_second_tx : ¬ specNestedReuse := by
  intro h
  have h01 := h 0 1
  simp [withinTransactionCtx] at h01

/-- C8 amended: the transaction-scoped context key is consulted by the
repositories' `getTx`, so Storage-Gateway calls made inside an open
Unit-of-Work scope do reuse the open transaction found in the call context;
`WithinTransaction` itself never consults that key and unconditionally
begins a new transaction, so a nested `WithinTransaction` call runs its body
under a second, fresh transaction. -/
theorem c8_amended_gettx_reuses_begin_always_fresh :
    (∀ t, getTxExecutor { txId := some t } = Executor.tx t) ∧
    getTxExecutor { txId := none } = Executor.pool ∧
    (∀ ctx fresh, ((withinTransactionCtx ctx fresh).1).txId = some fresh) :=
  ⟨fun _ => rfl, rfl, fun _ _ => rfl⟩

/-- C9: `WithinTransaction` commits exactly when the wrapped function
returns no error; on a non-nil error it rolls back (the committed store is
the original one and the error is returned); on a panic it rolls back and
re-raises the panic.  In the two failure cases the buffer of writes the
function made through the transaction is discarded. -/
theorem c9_within_transaction_commit_rollback (db : DB) (fn : DB → DB × TxEnd) :
    ((withinTransaction db fn).error = none ∧ (withinTransaction db fn).panic = none
      ↔ (fn db).2 = TxEnd.ok) ∧
    ((fn db).2 = TxEnd.ok →
      withinTransaction db fn = { db := (fn db).1, error := none, panic := none }) ∧
    (∀ e, (fn db).2 = TxEnd.err e →
      withinTransaction db fn = { db := db, error := some e, panic := none }) ∧
    (∀ p, (fn db).2 = TxEnd.panicked p →
      withinTransaction db fn = { db := db, error := none, panic := some p }) := by
  cases h : (fn db).2 with
  | ok => simp [withinTransaction, h]
  | err e => simp [withinTransaction, h]
  | panicked p => simp [withinTransaction, h]

/-- Witness for C9 at concrete inputs: a body that clears the edge table and
fails with error "boom" leaves the store untouched and surfaces the error; a
body that panics with "stop" leaves the store untouched and re-raises. -/
theorem c9_witness :
    withinTransaction demoDB demoTxFnErr =
      { db := demoDB, error := some "boom", panic := none } ∧
    withinTransaction demoDB demoTxFnPanic =
      { db := demoDB, error := none, panic := some "stop" } :=
  ⟨(c9_within_transaction_commit_rollback demoDB demoTxFnErr).2.2.1 "boom" rfl,
   (c9_within_transaction_commit_rollback demoDB demoTxFnPanic).2.2.2 "stop" rfl⟩

/-- C1: MergePR is idempotent on an already-MERGED PR: every call returns
the store unchanged (no write to the PR row) together with a response built
from the stored status, the original `merged_at` and the currently assigned
reviewer list, and any two calls — whatever the clock reads — produce the
identical result. -/
theorem c1_merge_idempotent (db : DB) (req : MergePrRequest) (now now' : Nat)
    (pr : PullRequest) (t : Nat)
    (hfind : prFindByID db req.pullRequestID = some pr)
    (hst : pr.status = PRStatusMerged)
    (hma : pr.mergedAt = some t) :
    mergePR db req now = some (.ok (db,
      { pr := { pullRequestID := pr.id, pullRequestName := pr.title,
                authorID := pr.authorId, status := pr.status,
                assignedReviewers := getReviewers db pr.id,
                mergedAt := formatRFC3339 t } })) ∧
    mergePR db req now' = mergePR db req now := by
  have hbranch : ∀ n : Nat, mergePR db req n = some (.ok (db,
      { pr := { pullRequestID := pr.id, pullRequestName := pr.title,
                authorID := pr.authorId, status := pr.status,
                assignedReviewers := getReviewers db pr.id,
                mergedAt := formatRFC3339 t } })) := by
    intro n
    unfold mergePR
    rw [hfind]
    simp [hst, hma]
  exact ⟨hbranch now, (hbranch now').trans (hbranch now).symm⟩

/-- Witness for C1: merging the already-merged pr-9 of the demo store at
clock 5 returns the unchanged store and the original `merged_at` 10, and the
call at clock 6 returns the same. -/
theorem c1_witness :
    mergePR demoDB { pullRequestID := "pr-9" } 5 = some (.ok (demoDB,
      { pr := { pullRequestID := demoMergedPR.id,
                pullRequestName := demoMergedPR.title,
                authorID := demoMergedPR.authorId,
                status := demoMergedPR.status,
                assignedReviewers := getReviewers demoDB demoMergedPR.id,
                mergedAt := formatRFC3339 10 } })) ∧
    mergePR demoDB { pullRequestID := "pr-9" } 6 =
      mergePR demoDB { pullRequestID := "pr-9" } 5 :=
  c1_merge_idempotent demoDB { pullRequestID := "pr-9" } 5 6 demoMergedPR 10 rfl rfl rfl

/-- C2: every successful CreatePR call assigns between 0 and 2 reviewers,
none of them the author, and each of them an active user on the author's
team as stored at creation time; additionally a creation that finds no
candidate at all succeeds with an empty reviewer set (witnessed on a store
whose only user is the author). -/
theorem c2_create_quota_invariant :
    (∀ (db : DB) (req : CreatePrRequest) (now : Nat) (db' : DB)
        (resp : CreatePrResponse),
      createPR db req now = .ok (db', resp) →
      resp.pr.assignedReviewers.length ≤ 2 ∧
      req.authorID ∉ resp.pr.assignedReviewers ∧
      ∃ author, userFindByID db req.authorID = some author ∧
        ∀ rid ∈ resp.pr.assignedReviewers, ∃ u ∈ db.users,
          u.id = rid ∧ u.isActive = true ∧ u.teamName = author.teamName) ∧
    (∃ (db' : DB) (resp : CreatePrResponse),
      createPR demoDBSolo
        { pullRequestID := "pr-s", pullRequestName := "Solo", authorID := "u1" } 3
        = .ok (db', resp) ∧ resp.pr.assignedReviewers = []) := by
  constructor
  · intro db req now db' resp h
    unfold createPR at h
    split at h
    · exact absurd h (by simp)
    · split at h
      · exact absurd h (by simp)
      · rename_i author hauthor
        split at h
        · exact absurd h (by simp)
        · split at h
          · exact absurd h (by simp)
          · rw [Except.ok.injEq, Prod.mk.injEq] at h
            have hresp := h.2
            have hrev : resp.pr.assignedReviewers =
                ((findActiveCandidatesForReassignment db author.teamName
                  [req.authorID]).take
                    (min 2 (findActiveCandidatesForReassignment db author.teamName
                      [req.authorID]).length)).map User.id := by
              rw [← hresp]
            have hmemrev : ∀ rid ∈ resp.pr.assignedReviewers, ∃ u,
                u ∈ findActiveCandidatesForReassignment db author.teamName
                  [req.authorID] ∧ u.id = rid := by
              intro rid hrid
              rw [hrev] at hrid
              rcases List.mem_map.mp hrid with ⟨u, hu, hid⟩
              exact ⟨u, List.take_subset _ _ hu, hid⟩
            refine ⟨?_, ?_, author, hauthor, ?_⟩
            · rw [hrev]
              simp only [List.length_map, List.length_take]
              omega
            · intro hcontra
              rcases hmemrev _ hcontra with ⟨u, hu, hid⟩
              have := (mem_candidates.mp hu).2.2.2
              simp [hid] at this
            · intro rid hrid
              rcases hmemrev rid hrid with ⟨u, hu, hid⟩
              have hc := mem_candidates.mp hu
              exact ⟨u, hc.1, hid, hc.2.2.1, hc.2.1⟩
  · exact ⟨_, _, rfl, rfl⟩

/-- Witness for C2: creating pr-2 on the demo store succeeds and the quota
invariant holds for its two assigned reviewers. -/
theorem c2_witness :
    demoCreateResp.pr.assignedReviewers.length ≤ 2 ∧
    demoCreateReq.authorID ∉ demoCreateResp.pr.assignedReviewers ∧
    ∃ author, userFindByID demoDB demoCreateReq.authorID = some author ∧
      ∀ rid ∈ demoCreateResp.pr.assignedReviewers, ∃ u ∈ demoDB.users,
        u.id = rid ∧ u.isActive = true ∧ u.teamName = author.teamName :=
  c2_create_quota_invariant.1 demoDB demoCreateReq 7 demoCreatedDB demoCreateResp rfl

/-- C3: a successful ReassignReviewer picks a replacement that is neither
the PR's author, nor any reviewer currently assigned to the PR (the
departing reviewer included), and that replacement is the head — the first
in user-id-ascending order — of the candidate list on the old reviewer's
team after removing the exclusion set `{author} ∪ current reviewers`. -/
theorem c3_reassign_exclusion (db db' : DB) (req : ReassignReviewerRequest)
    (resp : ReassignReviewerResponse)
    (h : reassignReviewer db req = .ok (db', resp)) :
    ∃ pr oldR,
      prFindByID db req.pullRequestID = some pr ∧
      userFindByID db req.oldReviewerID = some oldR ∧
      resp.replacedBy ≠ pr.authorId ∧
      resp.replacedBy ∉ getReviewers db req.pullRequestID ∧
      resp.replacedBy ≠ req.oldReviewerID ∧
      ∃ newR, (findActiveCandidatesForReassignment db oldR.teamName
          (pr.authorId :: getReviewers db req.pullRequestID)).head? = some newR ∧
        resp.replacedBy = newR.id := by
  unfold reassignReviewer at h
  split at h
  · exact absurd h (by simp)
  · rename_i pr hfind
    split at h
    · exact absurd h (by simp)
    · rename_i hmerged
      split at h
      · exact absurd h (by simp)
      · rename_i hassigned
        split at h
        · exact absurd h (by simp)
        · rename_i oldR holdR
          rcases hcand : findActiveCandidatesForReassignment db oldR.teamName
              (pr.authorId :: getReviewers db req.pullRequestID) with _ | ⟨newR, rest⟩
          · simp only [hcand] at h
            exact absurd h (by simp)
          · simp only [hcand] at h
            rw [Except.ok.injEq, Prod.mk.injEq] at h
            have hresp : resp.replacedBy = newR.id := by rw [← h.2]
            have hnewmem : newR ∈ findActiveCandidatesForReassignment db
                oldR.teamName (pr.authorId :: getReviewers db req.pullRequestID) := by
              rw [hcand]; exact List.mem_cons_self newR rest
            have hc := mem_candidates.mp hnewmem
            have hnotex := hc.2.2.2
            rw [List.mem_cons] at hnotex
            push_neg at hnotex
            have holdassigned : isAssigned db req.pullRequestID req.oldReviewerID = true := by
              rcases Bool.eq_false_or_eq_true
                  (isAssigned db req.pullRequestID req.oldReviewerID) with ht | hf
              · exact ht
              · exact absurd (by simp [hf]) hassigned
            have holdmem : req.oldReviewerID ∈ getReviewers db req.pullRequestID :=
              mem_getReviewers.mpr (isAssigned_iff.mp holdassigned)
            refine ⟨pr, oldR, hfind, holdR, ?_, ?_, ?_, newR, ?_, hresp⟩
            · rw [hresp]; exact hnotex.1
            · rw [hresp]; exact hnotex.2
            · rw [hresp]
              intro hcontra
              exact hnotex.2 (hcontra ▸ holdmem)
            · rw [hcand]; rfl

/-- Witness for C3: reassigning pr-1 away from u2 on the demo store yields
u4 — not the author u1, not a current reviewer of pr-1, not u2 itself, and
the head of the remaining candidate list. -/
theorem c3_witness :
    ∃ pr oldR,
      prFindByID demoDB demoReassignReq.pullRequestID = some pr ∧
      userFindByID demoDB demoReassignReq.oldReviewerID = some oldR ∧
      demoReassignResp.replacedBy ≠ pr.authorId ∧
      demoReassignResp.replacedBy ∉
        getReviewers demoDB demoReassignReq.pullRequestID ∧
      demoReassignResp.replacedBy ≠ demoReassignReq.oldReviewerID ∧
      ∃ newR, (findActiveCandidatesForReassignment demoDB oldR.teamName
          (pr.authorId :: getReviewers demoDB demoReassignReq.pullRequestID)).head?
            = some newR ∧
        demoReassignResp.replacedBy = newR.id :=
  c3_reassign_exclusion demoDB demoReassignedDB demoReassignReq demoReassignResp rfl

/-- C7: ReassignReviewer performs its precondition checks in the spec's
order, each failing with the corresponding stable code: NOT_FOUND when the
PR is absent; PR_MERGED whenever the PR is MERGED; NOT_ASSIGNED when the old
reviewer has no edge on the PR; NOT_FOUND when the old reviewer's user row
is missing; NO_CANDIDATE when the replacement pool is empty.  Every failure
is an `Except.error`, which carries no store: the service writes nothing and
the transaction rolls back, so the reviewer edges are unchanged. -/
theorem c7_reassign_error_order :
    (∀ (db : DB) (req : ReassignReviewerRequest),
      prFindByID db req.pullRequestID = none →
      reassignReviewer db req = .error (newNotFound "PR not found")) ∧
    (∀ (db : DB) (req : ReassignReviewerRequest) (pr : PullRequest),
      prFindByID db req.pullRequestID = some pr →
      pr.status = PRStatusMerged →
      reassignReviewer db req = .error (newPRMerged "cannot reassign on merged PR")) ∧
    (∀ (db : DB) (req : ReassignReviewerRequest) (pr : PullRequest),
      prFindByID db req.pullRequestID = some pr →
      pr.status ≠ PRStatusMerged →
      isAssigned db req.pullRequestID req.oldReviewerID = false →
      reassignReviewer db req =
        .error (newNotAssigned "reviewer is not assigned to this PR")) ∧
    (∀ (db : DB) (req : ReassignReviewerRequest) (pr : PullRequest),
      prFindByID db req.pullRequestID = some pr →
      pr.status ≠ PRStatusMerged →
      isAssigned db req.pullRequestID req.oldReviewerID = true →
      userFindByID db req.oldReviewerID = none →
      reassignReviewer db req = .error (newNotFound "old reviewer not found")) ∧
    (∀ (db : DB) (req : ReassignReviewerRequest) (pr : PullRequest) (oldR : User),
      prFindByID db req.pullRequestID = some pr →
      pr.status ≠ PRStatusMerged →
      isAssigned db req.pullRequestID req.oldReviewerID = true →
      userFindByID db req.oldReviewerID = some oldR →
      findActiveCandidatesForReassignment db oldR.teamName
        (pr.authorId :: getReviewers db req.pullRequestID) = [] →
      reassignReviewer db req =
        .error (newNoCandidate "no active replacement candidate in team")) := by
  refine ⟨?_, ?_, ?_, ?_, ?_⟩
  · intro db req hfind
    unfold reassignReviewer
    rw [hfind]
  · intro db req pr hfind hst
    unfold reassignReviewer
    rw [hfind]
    simp [hst]
  · intro db req pr hfind hst hassigned
    unfold reassignReviewer
    rw [hfind]
    have hbeq : (pr.status == PRStatusMerged) = false := by
      simp [hst]
    simp [hbeq, hassigned]
  · intro db req pr hfind hst hassigned hold
    unfold reassignReviewer
    rw [hfind]
    have hbeq : (pr.status == PRStatusMerged) = false := by
      simp [hst]
    simp only [hbeq, Bool.false_eq_true, if_false, hassigned, Bool.not_true,
      if_false]
    rw [hold]
  · intro db req pr oldR hfind hst hassigned hold hcand
    unfold reassignReviewer
    rw [hfind]
    have hbeq : (pr.status == PRStatusMerged) = false := by
      simp [hst]
    simp only [hbeq, Bool.false_eq_true, if_false, hassigned, Bool.not_true,
      if_false]
    rw [hold]
    simp only [hcand]

/-- Witness for C7: each of the five failure shapes on a concrete store —
an absent PR id, the merged pr-9, a reviewer u5 with no edge on pr-1, a
ghost reviewer edge with no user row, and a store without any remaining
candidate. -/
theorem c7_witness :
    reassignReviewer demoDB { pullRequestID := "nope", oldReviewerID := "u2" } =
      .error (newNotFound "PR not found") ∧
    reassignReviewer demoDB { pullRequestID := "pr-9", oldReviewerID := "u2" } =
      .error (newPRMerged "cannot reassign on merged PR") ∧
    reassignReviewer demoDB { pullRequestID := "pr-1", oldReviewerID := "u5" } =
      .error (newNotAssigned "reviewer is not assigned to this PR") ∧
    reassignReviewer demoDBGhost { pullRequestID := "pr-1", oldReviewerID := "ghost" } =
      .error (newNotFound "old reviewer not found") ∧
    reassignReviewer demoDBNoCandidate { pullRequestID := "pr-1", oldReviewerID := "u2" } =
      .error (newNoCandidate "no active replacement candidate in team") :=
  ⟨c7_reassign_error_order.1 demoDB _ rfl,
   c7_reassign_error_order.2.1 demoDB _ demoMergedPR rfl rfl,
   c7_reassign_error_order.2.2.1 demoDB _ demoOpenPR rfl (by decide) rfl,
   c7_reassign_error_order.2.2.2.1 demoDBGhost _ demoOpenPR rfl (by decide) rfl rfl,
   c7_reassign_error_order.2.2.2.2 demoDBNoCandidate _ demoOpenPR
     { id := "u2", name := "bob", teamName := "backend", isActive := true }
     rfl (by decide) rfl rfl (by decide)⟩

/-- C6: a successful DeactivateTeam(T) leaves every user of team T inactive
and every OPEN PR without any reviewer who was on team T before the call
(the edge of the merged pr is allowed to stay); the response reports the
number of users flipped from active to inactive, the number of removed
reviewer edges (stated as: removed count plus remaining edge count equals
the original edge count), and the full member id list; and DeactivateTeam
fails NOT_FOUND when no user exists under T. -/
theorem c6_deactivate_cascade (db : DB) (T : String) :
    ((∀ u ∈ db.users, u.teamName ≠ T) →
      deactivateTeam db T = .error (newNotFound "team not found")) ∧
    (∀ (db' : DB) (resp : DeactivateTeamResponse), db.reviewers.Nodup →
      deactivateTeam db T = .ok (db', resp) →
      (∀ u ∈ db'.users, u.teamName = T → u.isActive = false) ∧
      (∀ pr ∈ db'.prs, pr.status = PRStatusOpen →
        ∀ u ∈ db.users, u.teamName = T → (pr.id, u.id) ∉ db'.reviewers) ∧
      resp.deactivatedUsers =
        (db.users.filter (fun u => u.teamName == T && u.isActive)).length ∧
      resp.reassignedPRs + db'.reviewers.length = db.reviewers.length ∧
      (∀ i, i ∈ resp.userIDs ↔ ∃ u ∈ db.users, u.teamName = T ∧ u.id = i)) := by
  constructor
  · intro hnone
    unfold deactivateTeam
    rw [getTeamByName_eq_none_iff.mpr hnone]
  · intro db' resp hnd h
    unfold deactivateTeam at h
    split at h
    · exact absurd h (by simp)
    · rw [Except.ok.injEq, Prod.mk.injEq] at h
      have hdb' := h.1
      have hresp := h.2
      subst hdb'
      subst hresp
      set rids := (findUsersByTeamName db T).map User.id with hrids
      set openPRs := findOpenPRsByReviewers db rids with hopen
      set folded := removeTeamEdges rids openPRs (db, 0) with hfolded
      have husers : folded.1.users = db.users := by
        rw [hfolded]
        exact removeTeamEdges_users rids openPRs (db, 0)
      have hprs : folded.1.prs = db.prs := by
        rw [hfolded]
        exact removeTeamEdges_prs rids openPRs (db, 0)
      have hidmem : ∀ u ∈ db.users, u.teamName = T → u.id ∈ rids := by
        intro u hu hT
        rw [hrids]
        exact List.mem_map.mpr ⟨u, mem_findUsersByTeamName.mpr ⟨hu, hT⟩, rfl⟩
      refine ⟨?_, ?_, ?_, ?_, ?_⟩
      · intro u hu hT
        simp only [deactivateTeamUsers] at hu
        rw [husers] at hu
        rcases List.mem_map.mp hu with ⟨v, hv, hveq⟩
        by_cases hcond : (v.teamName == T && v.isActive) = true
        · rw [if_pos hcond] at hveq
          rw [← hveq]
        · rw [if_neg hcond] at hveq
          subst hveq
          simp only [Bool.and_eq_true, beq_iff_eq, not_and] at hcond
          rcases Bool.eq_false_or_eq_true v.isActive with hact | hact
          · exact absurd hact (hcond hT)
          · exact hact
      · intro pr hpr hst u hu hT hmem
        simp only [deactivateTeamUsers] at hpr hmem
        rw [hprs] at hpr
        have hfold := mem_removeTeamEdges rids openPRs (db, 0) hmem
        have hedge : (pr.id, u.id) ∈ db.reviewers := hfold.1
        have hpropen : pr ∈ openPRs := by
          rw [hopen]
          apply List.mem_filter.mpr
          refine ⟨hpr, ?_⟩
          simp only [Bool.and_eq_true, beq_iff_eq]
          refine ⟨hst, ?_⟩
          apply List.any_eq_true.mpr
          refine ⟨(pr.id, u.id), hedge, ?_⟩
          simp [List.contains, List.elem_iff, hidmem u hu hT]
        exact hfold.2 pr hpropen ⟨rfl, hidmem u hu hT⟩
      · simp only [deactivateTeamUsers]
        rw [husers]
      · have hcount := removeTeamEdges_count rids openPRs (db, 0) hnd
        rw [← hfolded] at hcount
        have hcount2 : folded.1.reviewers.length + folded.2 = db.reviewers.length := by
          simpa using hcount.2
        show folded.2 + (deactivateTeamUsers folded.1 T).1.reviewers.length =
          db.reviewers.length
        have hrev : (deactivateTeamUsers folded.1 T).1.reviewers = folded.1.reviewers := rfl
        rw [hrev]
        omega
      · intro i
        simp only [hrids, List.mem_map]
        constructor
        · rintro ⟨u, hu, rfl⟩
          have := mem_findUsersByTeamName.mp hu
          exact ⟨u, this.1, this.2, rfl⟩
        · rintro ⟨u, hu, hT, rfl⟩
          exact ⟨u, mem_findUsersByTeamName.mpr ⟨hu, hT⟩, rfl⟩

/-- Witness for C6: deactivating "backend" on the demo store flips u1-u4
inactive, strips pr-1 of both reviewers while the merged pr-9 keeps its
edge, and reports 4 flips, 2 removed edges and the member list. -/
theorem c6_witness :
    (∀ u ∈ demoDeactivatedDB.users, u.teamName = "backend" → u.isActive = false) ∧
    (∀ pr ∈ demoDeactivatedDB.prs, pr.status = PRStatusOpen →
      ∀ u ∈ demoDB.users, u.teamName = "backend" →
        (pr.id, u.id) ∉ demoDeactivatedDB.reviewers) ∧
    demoDeactResp.deactivatedUsers =
      (demoDB.users.filter (fun u => u.teamName == "backend" && u.isActive)).length ∧
    demoDeactResp.reassignedPRs + demoDeactivatedDB.reviewers.length =
      demoDB.reviewers.length ∧
    (∀ i, i ∈ demoDeactResp.userIDs ↔
      ∃ u ∈ demoDB.users, u.teamName = "backend" ∧ u.id = i) :=
  (c6_deactivate_cascade demoDB "backend").2 demoDeactivatedDB demoDeactResp
    (by decide) rfl

/-- C10: every operation preserves the stored invariant that a PR row has a
non-null `merged_at` exactly when its status is MERGED — CreatePR inserts an
OPEN row with null `merged_at`, the merge write sets MERGED and `merged_at`
together, and the other operations leave PR rows untouched — and on a store
satisfying the invariant MergePR never hits the nil-pointer dereference of
`pr.MergedAt` in its already-merged branch (the `none` outcome modelling
that panic is impossible). -/
theorem c10_merged_at_consistency :
    (∀ (db : DB) (req : CreatePrRequest) (now : Nat) (db' : DB)
        (resp : CreatePrResponse), mergedConsistent db →
      createPR db req now = .ok (db', resp) → mergedConsistent db') ∧
    (∀ (db : DB) (req : MergePrRequest) (now : Nat)
        (res : DB × MergePrResponse), mergedConsistent db →
      mergePR db req now = some (.ok res) → mergedConsistent res.1) ∧
    (∀ (db : DB) (req : ReassignReviewerRequest) (db' : DB)
        (resp : ReassignReviewerResponse), mergedConsistent db →
      reassignReviewer db req = .ok (db', resp) → mergedConsistent db') ∧
    (∀ (db : DB) (T : String) (db' : DB) (resp : DeactivateTeamResponse),
      mergedConsistent db →
      deactivateTeam db T = .ok (db', resp) → mergedConsistent db') ∧
    (∀ (db : DB) (req : MergePrRequest) (now : Nat), mergedConsistent db →
      mergePR db req now ≠ none) := by
  refine ⟨?_, ?_, ?_, ?_, ?_⟩
  · intro db req now db' resp hc h
    unfold createPR at h
    split at h
    · exact absurd h (by simp)
    · split at h
      · exact absurd h (by simp)
      · rename_i author hauthor
        split at h
        · exact absurd h (by simp)
        · split at h
          · exact absurd h (by simp)
          · rw [Except.ok.injEq, Prod.mk.injEq] at h
            have hdb' := h.1
            intro pr hpr
            rw [← hdb', foldl_assignReviewer_prs] at hpr
            simp only [prCreate, List.mem_append, List.mem_singleton] at hpr
            rcases hpr with hold | hnew
            · exact hc pr hold
            · subst hnew
              simp only
              constructor
              · intro hcontra
                exact absurd hcontra (by decide)
              · intro hcontra
                simp at hcontra
  · intro db req now res hc h
    unfold mergePR at h
    split at h
    · exact absurd h (by simp)
    · rename_i pr hfind
      split at h
      · rename_i hmerged
        split at h
        · exact absurd h (by simp)
        · rename_i t hma
          rw [Option.some.injEq, Except.ok.injEq] at h
          rw [← h]
          exact hc
      · rename_i hmerged
        rw [Option.some.injEq, Except.ok.injEq] at h
        rw [← h]
        intro q hq
        simp only [updateStatusRow, List.mem_map] at hq
        rcases hq with ⟨p, hp, hpeq⟩
        by_cases hid : (p.id == pr.id) = true
        · rw [if_pos hid] at hpeq
          rw [← hpeq]
          simp [PRStatusMerged]
        · rw [if_neg hid] at hpeq
          rw [← hpeq]
          exact hc p hp
  · intro db req db' resp hc h
    unfold reassignReviewer at h
    split at h
    · exact absurd h (by simp)
    · rename_i pr hfind
      split at h
      · exact absurd h (by simp)
      · split at h
        · exact absurd h (by simp)
        · split at h
          · exact absurd h (by simp)
          · rename_i oldR holdR
            rcases hcand : findActiveCandidatesForReassignment db oldR.teamName
                (pr.authorId :: getReviewers db req.pullRequestID) with _ | ⟨newR, rest⟩
            · simp only [hcand] at h
              exact absurd h (by simp)
            · simp only [hcand] at h
              rw [Except.ok.injEq, Prod.mk.injEq] at h
              have hdb' := h.1
              rw [← hdb']
              intro q hq
              rw [replaceReviewer_prs] at hq
              exact hc q hq
  · intro db T db' resp hc h
    unfold deactivateTeam at h
    split at h
    · exact absurd h (by simp)
    · rw [Except.ok.injEq, Prod.mk.injEq] at h
      have hdb' := h.1
      rw [← hdb']
      intro q hq
      have hqprs : (deactivateTeamUsers
          (removeTeamEdges ((findUsersByTeamName db T).map User.id)
            (findOpenPRsByReviewers db ((findUsersByTeamName db T).map User.id))
            (db, 0)).1 T).1.prs =
          db.prs := by
        have h1 : ∀ d : DB, (deactivateTeamUsers d T).1.prs = d.prs := fun d => rfl
        rw [h1, removeTeamEdges_prs]
      rw [hqprs] at hq
      exact hc q hq
  · intro db req now hc
    unfold mergePR
    split
    · simp
    · rename_i pr hfind
      split
      · rename_i hmerged
        have hpr := prFindByID_eq_some hfind
        have hst : pr.status = PRStatusMerged := by
          simpa using hmerged
        have := (hc pr hpr.1).mp hst
        rcases hsome : pr.mergedAt with _ | t
        · rw [hsome] at this
          simp at this
        · simp
      · simp

/-- Witness for C10: the demo store satisfies the invariant; creating pr-2
on it preserves the invariant, and merging any id on it cannot panic. -/
theorem c10_witness :
    mergedConsistent demoCreatedDB ∧
    mergePR demoDB { pullRequestID := "pr-9" } 5 ≠ none :=
  ⟨c10_merged_at_consistency.1 demoDB demoCreateReq 7 demoCreatedDB demoCreateResp
      (by decide) rfl,
   c10_merged_at_consistency.2.2.2.2 demoDB { pullRequestID := "pr-9" } 5 (by decide)⟩

end PRRev
